import Mathlib

/-!
Verification of `mwavepy/parameterizedStandard.py`.

The file shallowly embeds the `ParameterizedStandard` class: dictionaries
become association lists with string keys, in-place mutation becomes explicit
state passing, and Python exceptions become explicit error values.  A second,
heap-based model (`Store`/`PSObj`) captures the aliasing behaviour of Python
objects, which the value model cannot express: the mutable default argument
`parameters={}` of `__init__`, and the `copy` performed by the `network`
property before merging arguments.
-/

namespace Mwavepy

/-- Errors surfaced by `ParameterizedStandard` operations.  `keyError`,
`attributeError` and `indexError` model the Python exceptions of the same
names; `genError` wraps an error raised inside the generator `function`,
which the class propagates unchanged. -/
inductive PyError (ε : Type) : Type where
  | keyError (key : String)
  | attributeError (attr : String)
  | indexError (idx : Nat)
  | genError (e : ε)
deriving DecidableEq, Repr

/-- A Python dict with string keys, modelled as an association list.  Real
dicts never hold two entries with the same key; duplicate-freedom of the key
list is carried as a hypothesis where a statement needs it. -/
abbrev Dict (α : Type) : Type := List (String × α)

namespace Dict

/-- Optional lookup: the value of the first entry whose key is `k`. -/
def get? {α : Type} (d : Dict α) (k : String) : Option α :=
  match d with
  | [] => none
  | (k1, v) :: rest => if k1 = k then some v else get? rest k

/-- Python `d[k] = v`: replace the binding of `k` if present, else append. -/
def set {α : Type} (d : Dict α) (k : String) (v : α) : Dict α :=
  match d with
  | [] => [(k, v)]
  | (k1, v1) :: rest => if k1 = k then (k, v) :: rest else (k1, v1) :: set rest k v

/-- Python `d.keys()`: the list of keys, in the dict's own order. -/
def keys {α : Type} (d : Dict α) : List String :=
  d.map Prod.fst

/-- `copy.copy` of a dict of immutable values: in the value model a shallow
copy has exactly the same entries.  (The heap model below is where copying
becomes observable, as a fresh allocation.) -/
def copy {α : Type} (d : Dict α) : Dict α := d

/-- Python `d.update(e)`: write every entry of `e` into `d`, in order. -/
def update {α : Type} (d e : Dict α) : Dict α :=
  e.foldl (fun acc kv => set acc kv.1 kv.2) d

/-- The list comprehension `[d[k] for k in ks]`: each subscript is a dict
read that raises `KeyError` when the key is absent. -/
def getValues {α ε : Type} (d : Dict α) (ks : List String) :
    Except (PyError ε) (List α) :=
  match ks with
  | [] => .ok []
  | k :: rest =>
    match get? d k with
    | none => .error (.keyError k)
    | some v => (getValues d rest).map (fun vs => v :: vs)

end Dict

/-- Lexicographic comparison of two character lists: `true` when the first
sorts no later than the second, characters compared by code point. -/
def charsLe : List Char → List Char → Bool
  | [], _ => true
  | _ :: _, [] => false
  | a :: as, b :: bs => if a = b then charsLe as bs else decide (a < b)

/-- String comparison as Python 2 `list.sort()` orders `str` keys:
lexicographic, ascending. -/
def strLe (a b : String) : Bool :=
  charsLe a.data b.data

/-- The object returned by a generator function: in the source this is a
`Network` instance; the only field the class reads is its s-matrix attribute
`s`.  `none` models an object that lacks the attribute, so that reading it
raises `AttributeError`. -/
structure Network (σ : Type) : Type where
  s : Option σ
deriving DecidableEq, Repr

/-- `ParameterizedStandard` (value model): `function` is the generator, called
with a dict of named arguments and either returning a response object of type
`ν` or raising an error of type `ε`; `parameters` is the mutable dictionary of
optimizable parameters; `kwargs` holds the keyword arguments fixed at
construction.  Mutation of `self.parameters` is rendered as explicit state
passing: a mutating method returns the updated object. -/
structure ParameterizedStandard (α ν ε : Type) : Type where
  function : Dict α → Except ε ν
  parameters : Dict α
  kwargs : Dict α

namespace ParameterizedStandard

/-- `parameter_keys` property: `keys = self.parameters.keys(); keys.sort()`,
the keys of the parameters dict in ascending lexicographic order, recomputed
from the dict on every access. -/
def parameter_keys {α ν ε : Type} (self : ParameterizedStandard α ν ε) :
    List String :=
  List.insertionSort (fun a b => strLe a b = true) (Dict.keys self.parameters)

/-- `parameter_array` getter: `npy.array([self.parameters[k] for k in
self.parameter_keys])`, the parameter values in alphabetical key order (the
numpy array is modelled as the list of its elements; each subscript
`self.parameters[k]` is a dict read). -/
def parameter_array {α ν ε : Type} (self : ParameterizedStandard α ν ε) :
    Except (PyError ε) (List α) :=
  Dict.getValues self.parameters (parameter_keys self)

/-- The `for k in self.parameter_keys` loop of the `parameter_array` setter:
`counter` starts at 0 and each iteration runs
`self.parameters[k] = input_array[counter]; counter += 1`.  The subscript
`input_array[counter]` raises `IndexError` when `counter` is out of range;
the returned pair is the dict as left by the loop (assignments made before a
failing read persist) together with the error, if one was raised. -/
def set_loop {α ε : Type} (params : Dict α) (ks : List String)
    (input_array : List α) (counter : Nat) : Dict α × Option (PyError ε) :=
  match ks with
  | [] => (params, none)
  | k :: rest =>
    match input_array[counter]? with
    | none => (params, some (.indexError counter))
    | some v => set_loop (Dict.set params k v) rest input_array (counter + 1)

/-- `parameter_array` setter: iterate over `self.parameter_keys` writing
`input_array[counter]` into `self.parameters`.  Returns the object after the
loop and the error the loop raised, if any. -/
def set_parameter_array {α ν ε : Type} (self : ParameterizedStandard α ν ε)
    (input_array : List α) : ParameterizedStandard α ν ε × Option (PyError ε) :=
  let r := set_loop self.parameters (parameter_keys self) input_array 0
  ({ self with parameters := r.1 }, r.2)

/-- `number_of_parameters` property: `len(self.parameter_keys)`. -/
def number_of_parameters {α ν ε : Type} (self : ParameterizedStandard α ν ε) :
    Nat :=
  (parameter_keys self).length

/-- The dict `tmp_args` built by the `network` property:
`tmp_args = copy(self.kwargs); tmp_args.update(self.parameters)`. -/
def tmp_args {α ν ε : Type} (self : ParameterizedStandard α ν ε) : Dict α :=
  Dict.update (Dict.copy self.kwargs) self.parameters

/-- `network` property: builds `tmp_args` and returns
`self.function(**tmp_args)`; an error raised by the generator propagates
unchanged (wrapped as `genError` to distinguish its origin). -/
def network {α ν ε : Type} (self : ParameterizedStandard α ν ε) :
    Except (PyError ε) ν :=
  match self.function (tmp_args self) with
  | .ok nw => .ok nw
  | .error e => .error (.genError e)

/-- `s` property: `self.network.s`.  A failure of `network` propagates; an
`ok` response object lacking the `s` attribute raises `AttributeError`. -/
def s {α σ ε : Type} (self : ParameterizedStandard α (Network σ) ε) :
    Except (PyError ε) σ :=
  match network self with
  | .error e => .error e
  | .ok nw =>
    match nw.s with
    | some m => .ok m
    | none => .error (.attributeError "s")

end ParameterizedStandard


/-! ## Heap model

Aliasing between Python objects is invisible in the value model above, but it
decides two of the contract points: the mutable default argument
`parameters={}` of `__init__` (all instances constructed without an explicit
`parameters` dict share one object), and the `copy` summoned by the `network`
property (the merge happens on a fresh object, never on `self.kwargs`).  The
heap model makes dict objects explicit: instances hold references into a
store of dict objects. -/

/-- A reference to a dict object on the Python heap. -/
abbrev Ref : Type := Nat

/-- The heap of dict objects: `dicts[r]` is the object reference `r` points
to; allocating appends a fresh object at the end. -/
structure Store (α : Type) : Type where
  dicts : List (Dict α)

namespace Store

/-- Dereference `r`. -/
def read {α : Type} (st : Store α) (r : Ref) : Dict α :=
  (st.dicts[r]?).getD []

/-- Overwrite the object `r` points to. -/
def write {α : Type} (st : Store α) (r : Ref) (d : Dict α) : Store α :=
  ⟨st.dicts.set r d⟩

/-- Allocate a fresh dict object, returning its reference. -/
def alloc {α : Type} (st : Store α) (d : Dict α) : Ref × Store α :=
  (st.dicts.length, ⟨st.dicts ++ [d]⟩)

end Store

/-- `ParameterizedStandard` in the heap model: a Python instance holds
references to its `parameters` and `kwargs` dict objects, so aliasing between
instances is observable.  (`function`, being immutable here, stays a plain
value.) -/
structure PSObj (α ν ε : Type) : Type where
  function : Dict α → Except ε ν
  parametersRef : Ref
  kwargsRef : Ref

/-- The reference of the single dict object Python creates when it evaluates
the default value in `def __init__(self, function=None, parameters={},
**kwargs)`: a default value is evaluated once, when the `def` statement runs,
so every call that omits the `parameters` argument receives this same
object. -/
def defaultParametersRef : Ref := 0

/-- The heap right after the module's class body is evaluated: it holds
exactly the shared default dict object, which starts out empty. -/
def moduleStore (α : Type) : Store α := ⟨[[]]⟩

namespace PSObj

/-- `ParameterizedStandard.__init__` in the heap model.  The `parameters`
argument is `some r` when the caller passes a reference to a dict object it
holds, and `none` when the argument is omitted, in which case
`self.parameters` becomes a reference to the shared default object.
`**kwargs` packs the keyword arguments into a fresh dict, so `self.kwargs`
always references a fresh object. -/
def init {α ν ε : Type} (st : Store α) (function : Dict α → Except ε ν)
    (parameters : Option Ref) (kwargs : Dict α) : PSObj α ν ε × Store α :=
  let pr : Ref :=
    match parameters with
    | some r => r
    | none => defaultParametersRef
  let a := st.alloc kwargs
  ({ function := function, parametersRef := pr, kwargsRef := a.1 }, a.2)

/-- The direct dictionary write `self.parameters[k] = v` through an
instance's reference: mutates the referenced object in place. -/
def write_parameter {α ν ε : Type} (self : PSObj α ν ε) (st : Store α)
    (k : String) (v : α) : Store α :=
  st.write self.parametersRef (Dict.set (st.read self.parametersRef) k v)

/-- The `network` property in the heap model: `tmp_args = copy(self.kwargs)`
allocates a fresh dict object with the same entries;
`tmp_args.update(self.parameters)` mutates only that fresh object; finally
`self.function(**tmp_args)` runs.  Returns the response together with the
heap the computation leaves behind. -/
def network {α ν ε : Type} (self : PSObj α ν ε) (st : Store α) :
    Except (PyError ε) ν × Store α :=
  let a := st.alloc (Dict.copy (st.read self.kwargsRef))
  let st2 := a.2.write a.1 (Dict.update (a.2.read a.1) (a.2.read self.parametersRef))
  (match self.function (st2.read a.1) with
   | .ok nw => .ok nw
   | .error e => .error (.genError e), st2)

end PSObj

/-- `PS_Parameterless.__init__(ideal_network)`: calls the parent constructor
with `function = lambda: ideal_network` and no `parameters` argument, so the
instance's `parameters` is the shared default object.  The zero-argument
lambda succeeds exactly when it receives no named arguments; `typeErr`
stands for the `TypeError` Python raises otherwise. -/
def PS_Parameterless_init {α ν ε : Type} (st : Store α) (ideal_network : ν)
    (typeErr : ε) : PSObj α ν ε × Store α :=
  PSObj.init st
    (fun args => if args.isEmpty then .ok ideal_network else .error typeErr)
    none []

/-! ## Call-counting model

The `network` property holds no cache: each read runs the generator again.
`network_traced` instruments the value model's `network` with the list of
generator invocations it performs (each entry is the dict of named arguments
passed to `self.function`), and `network_twice` is the client program that
reads the property twice in a row with no intervening mutation. -/

namespace ParameterizedStandard

/-- One read of the `network` property, together with the generator
invocations it performs. -/
def network_traced {α ν ε : Type} (self : ParameterizedStandard α ν ε) :
    Except (PyError ε) ν × List (Dict α) :=
  (network self, [tmp_args self])

/-- Two consecutive reads of the `network` property: both results, and the
concatenated generator-invocation trace. -/
def network_twice {α ν ε : Type} (self : ParameterizedStandard α ν ε) :
    (Except (PyError ε) ν × Except (PyError ε) ν) × List (Dict α) :=
  (((network_traced self).1, (network_traced self).1),
    (network_traced self).2 ++ (network_traced self).2)

end ParameterizedStandard

/-! ## Concrete instances

Closed statements below evaluate the model on these small standards.  Values
are integers, responses are `Network Int`, and generator errors are `Unit`. -/

/-- A generator that ignores its arguments and returns a response whose
s-matrix field is present. -/
def genOk : Dict Int → Except Unit (Network Int) :=
  fun _ => .ok { s := some 0 }

/-- A standard with the single parameter `a`. -/
def exPS1 : ParameterizedStandard Int (Network Int) Unit :=
  { function := genOk, parameters := [("a", 0)], kwargs := [] }

/-- A standard with the two parameters `b` and `a`, inserted in that order. -/
def exPS2 : ParameterizedStandard Int (Network Int) Unit :=
  { function := genOk, parameters := [("b", 2), ("a", 1)], kwargs := [] }

/-- A standard with keys `b`, `a`, `c`, inserted in that order. -/
def exPS3 : ParameterizedStandard Int (Network Int) Unit :=
  { function := genOk, parameters := [("b", 2), ("a", 1), ("c", 3)], kwargs := [] }

/-- The same dictionary as `exPS3`, inserted in a different order. -/
def exPS3p : ParameterizedStandard Int (Network Int) Unit :=
  { function := genOk, parameters := [("c", 3), ("a", 1), ("b", 2)], kwargs := [] }

/-- A standard whose fixed arguments and parameters both bind `x`. -/
def exPS4 : ParameterizedStandard Int (Network Int) Unit :=
  { function := genOk, parameters := [("x", 2)], kwargs := [("x", 1)] }

/-- A zero-parameter standard with one fixed argument. -/
def exPS6 : ParameterizedStandard Int (Network Int) Unit :=
  { function := fun _ => .ok { s := some 7 }, parameters := [], kwargs := [("wg", 3)] }

/-- A standard whose generator returns a response carrying s-matrix `9`. -/
def exPS8 : ParameterizedStandard Int (Network Int) Unit :=
  { function := fun _ => .ok { s := some 9 }, parameters := [("d", 4)], kwargs := [] }

/-- A standard with the single parameter `d`. -/
def exPS10 : ParameterizedStandard Int (Network Int) Unit :=
  { function := genOk, parameters := [("d", 4)], kwargs := [] }

/-- Heap-model run for the default-argument claim: construct two standards,
both without an explicit `parameters` argument, starting from the heap as
the module left it. -/
def c5run1 : PSObj Int (Network Int) Unit × Store Int :=
  PSObj.init (moduleStore Int) genOk none []

/-- The second construction, through the `PS_Parameterless` preset, on the
heap `c5run1` left behind. -/
def c5run2 : PSObj Int (Network Int) Unit × Store Int :=
  PS_Parameterless_init c5run1.2 { s := some 0 } ()

/-- The heap after the direct write `first.parameters["x"] = 1` executed on
the heap holding both instances. -/
def c5store3 : Store Int :=
  PSObj.write_parameter c5run1.1 c5run2.2 "x" 1

/-- Heap-model instance for the kwargs-preservation claim: `parameters` at
reference 0 and `kwargs` at reference 1. -/
def c7ps : PSObj Int (Network Int) Unit :=
  { function := genOk, parametersRef := 0, kwargsRef := 1 }

/-- A heap holding the two dict objects `c7ps` references. -/
def c7store : Store Int :=
  ⟨[[("p", 2)], [("x", 1)]]⟩

/-! ## Theorems -/

theorem charsLe_total : ∀ as bs : List Char,
    charsLe as bs = true ∨ charsLe bs as = true
  | [], _ => Or.inl rfl
  | _ :: _, [] => Or.inr rfl
  | a :: as, b :: bs => by
    by_cases h : a = b
    · subst h
      simpa [charsLe] using charsLe_total as bs
    · rcases lt_or_gt_of_ne h with hlt | hgt
      · left
        simp [charsLe, h, hlt]
      · right
        simp [charsLe, Ne.symm h, hgt]

theorem charsLe_trans : ∀ as bs cs : List Char, charsLe as bs = true →
    charsLe bs cs = true → charsLe as cs = true
  | [], _, _, _, _ => rfl
  | _ :: _, [], _, h1, _ => by simp [charsLe] at h1
  | _ :: _, _ :: _, [], _, h2 => by simp [charsLe] at h2
  | a :: as, b :: bs, c :: cs, h1, h2 => by
    simp only [charsLe] at h1 h2 ⊢
    by_cases hab : a = b
    · subst hab
      simp only [if_pos rfl] at h1
      by_cases hac : a = c
      · subst hac
        simp only [if_pos rfl] at h2 ⊢
        exact charsLe_trans _ _ _ h1 h2
      · simp only [if_neg hac] at h2 ⊢
        exact h2
    · simp only [if_neg hab] at h1
      have hab2 : a < b := of_decide_eq_true h1
      by_cases hbc : b = c
      · have hac : a ≠ c := fun h3 => hab (h3.trans hbc.symm)
        simp only [if_neg hac]
        exact decide_eq_true (hbc ▸ hab2)
      · simp only [if_neg hbc] at h2
        have hbc2 : b < c := of_decide_eq_true h2
        have hac2 : a < c := lt_trans hab2 hbc2
        simp only [if_neg (ne_of_lt hac2)]
        exact decide_eq_true hac2

theorem charsLe_antisymm : ∀ as bs : List Char, charsLe as bs = true →
    charsLe bs as = true → as = bs
  | [], [], _, _ => rfl
  | [], _ :: _, _, h2 => by simp [charsLe] at h2
  | _ :: _, [], h1, _ => by simp [charsLe] at h1
  | a :: as, b :: bs, h1, h2 => by
    simp only [charsLe] at h1 h2
    by_cases hab : a = b
    · subst hab
      simp only [if_pos rfl] at h1 h2
      rw [charsLe_antisymm _ _ h1 h2]
    · simp only [if_neg hab, if_neg (Ne.symm hab)] at h1 h2
      exact absurd (of_decide_eq_true h2) (lt_asymm (of_decide_eq_true h1))

theorem strLe_total (a b : String) : strLe a b = true ∨ strLe b a = true :=
  charsLe_total a.data b.data

theorem strLe_trans (a b c : String) (h1 : strLe a b = true)
    (h2 : strLe b c = true) : strLe a c = true :=
  charsLe_trans a.data b.data c.data h1 h2

theorem strLe_antisymm (a b : String) (h1 : strLe a b = true)
    (h2 : strLe b a = true) : a = b := by
  obtain ⟨da⟩ := a
  obtain ⟨db⟩ := b
  have h3 : da = db := charsLe_antisymm da db h1 h2
  rw [h3]

instance : IsTotal String (fun a b => strLe a b = true) :=
  ⟨strLe_total⟩

instance : IsTrans String (fun a b => strLe a b = true) :=
  ⟨strLe_trans⟩

instance : IsAntisymm String (fun a b => strLe a b = true) :=
  ⟨strLe_antisymm⟩

theorem charsLe_iff : ∀ as bs : List Char,
    charsLe as bs = true ↔ ¬ List.Lex (fun a b => a < b) bs as
  | [], bs => by
    simp only [charsLe, true_iff]
    exact List.Lex.not_nil_right _ bs
  | a :: as, [] => by
    simp only [charsLe]
    constructor
    · intro h
      exact Bool.noConfusion h
    · intro h
      exact absurd List.Lex.nil h
  | a :: as, b :: bs => by
    by_cases hab : a = b
    · subst hab
      simp only [charsLe, eq_self_iff_true, if_true, List.Lex.cons_iff]
      exact charsLe_iff as bs
    · simp only [charsLe, if_neg hab, decide_eq_true_eq]
      constructor
      · intro h1 hlex
        cases hlex with
        | cons h2 => exact hab rfl
        | rel h2 => exact lt_asymm h1 h2
      · intro hn
        rcases lt_trichotomy a b with h1 | h1 | h1
        · exact h1
        · exact absurd h1 hab
        · exact absurd (List.Lex.rel h1) hn

/-- The model comparator agrees with the lexicographic linear order on
strings. -/
theorem strLe_iff_le (a b : String) : strLe a b = true ↔ a ≤ b := by
  rw [String.le_iff_toList_le, ← not_lt]
  exact charsLe_iff a.data b.data

namespace Dict

@[simp]
theorem keys_nil {α : Type} : keys ([] : Dict α) = [] := rfl

@[simp]
theorem keys_cons {α : Type} (k : String) (v : α) (d : Dict α) :
    keys ((k, v) :: d) = k :: keys d := rfl

@[simp]
theorem get?_nil {α : Type} (k : String) : get? ([] : Dict α) k = none := rfl

theorem get?_cons {α : Type} (k1 k : String) (v : α) (d : Dict α) :
    get? ((k1, v) :: d) k = if k1 = k then some v else get? d k := rfl

theorem set_cons {α : Type} (k1 k : String) (v1 v : α) (d : Dict α) :
    set ((k1, v1) :: d) k v =
      if k1 = k then (k, v) :: d else (k1, v1) :: set d k v := rfl

theorem get?_set_self {α : Type} (d : Dict α) (k : String) (v : α) :
    get? (set d k v) k = some v := by
  induction d with
  | nil => simp [set, get?_cons]
  | cons hd tl ih =>
    obtain ⟨k1, v1⟩ := hd
    by_cases h : k1 = k
    · simp [set_cons, h, get?_cons]
    · simp [set_cons, h, get?_cons, ih]

theorem get?_set_ne {α : Type} (d : Dict α) (k k2 : String) (v : α)
    (h : k2 ≠ k) : get? (set d k v) k2 = get? d k2 := by
  induction d with
  | nil => simp [set, get?_cons, Ne.symm h]
  | cons hd tl ih =>
    obtain ⟨k1, v1⟩ := hd
    by_cases hk : k1 = k
    · simp [set_cons, hk, get?_cons, Ne.symm h]
    · simp [set_cons, hk, get?_cons, ih]

theorem keys_set_of_mem {α : Type} (d : Dict α) (k : String) (v : α)
    (h : k ∈ keys d) : keys (set d k v) = keys d := by
  induction d with
  | nil => simp at h
  | cons hd tl ih =>
    obtain ⟨k1, v1⟩ := hd
    by_cases hk : k1 = k
    · simp [set_cons, hk]
    · have h2 : k ∈ keys tl := by
        rcases List.mem_cons.mp (by simpa using h) with h3 | h3
        · exact absurd h3.symm hk
        · exact h3
      simp [set_cons, hk, ih h2]

theorem get?_eq_some_of_mem_keys {α : Type} (d : Dict α) (k : String)
    (h : k ∈ keys d) : ∃ v, get? d k = some v := by
  induction d with
  | nil => simp at h
  | cons hd tl ih =>
    obtain ⟨k1, v1⟩ := hd
    by_cases hk : k1 = k
    · exact ⟨v1, by simp [get?_cons, hk]⟩
    · have h2 : k ∈ keys tl := by
        rcases List.mem_cons.mp (by simpa using h) with h3 | h3
        · exact absurd h3.symm hk
        · exact h3
      obtain ⟨v, hv⟩ := ih h2
      exact ⟨v, by simp [get?_cons, hk, hv]⟩

theorem get?_eq_none_of_not_mem_keys {α : Type} (d : Dict α) (k : String)
    (h : k ∉ keys d) : get? d k = none := by
  induction d with
  | nil => rfl
  | cons hd tl ih =>
    obtain ⟨k1, v1⟩ := hd
    have hk : k1 ≠ k := by
      intro h2
      exact h (by simp [h2])
    have h2 : k ∉ keys tl := fun h3 => h (by simp [h3])
    simp [get?_cons, hk, ih h2]

/-- Lookup in `update d e` prefers `e`: updating writes every binding of a
duplicate-free `e` on top of those of `d`. -/
theorem get?_update {α : Type} (d e : Dict α) (k : String)
    (hnd : (keys e).Nodup) :
    get? (update d e) k =
      match get? e k with
      | some v => some v
      | none => get? d k := by
  induction e generalizing d with
  | nil => simp [update, get?]
  | cons hd tl ih =>
    obtain ⟨k1, v1⟩ := hd
    have hnd2 : (keys tl).Nodup := by
      have := hnd
      simp at this
      exact this.2
    have hmem : k1 ∉ keys tl := by
      have := hnd
      simp at this
      exact this.1
    have hstep : update d ((k1, v1) :: tl) = update (set d k1 v1) tl := by
      simp [update]
    rw [hstep, ih (set d k1 v1) hnd2]
    by_cases hk : k1 = k
    · subst hk
      rw [get?_eq_none_of_not_mem_keys tl k1 hmem]
      simp [get?_cons, get?_set_self]
    · rw [get?_set_ne d k1 k v1 (Ne.symm hk)]
      simp [get?_cons, hk]

theorem getValues_eq {α ε : Type} (ks : List String) (d : Dict α)
    (vs : List α) (hlen : ks.length = vs.length)
    (h : ∀ p ∈ ks.zip vs, Dict.get? d p.1 = some p.2) :
    Dict.getValues (ε := ε) d ks = .ok vs := by
  induction ks generalizing vs with
  | nil =>
    cases vs with
    | nil => rfl
    | cons v vt => simp at hlen
  | cons k rest ih =>
    cases vs with
    | nil => simp at hlen
    | cons v vt =>
      have h1 : Dict.get? d k = some v := h (k, v) (by simp)
      have h2 := ih vt (by simpa using hlen) (fun p hp => h p (by simp [hp]))
      simp [Dict.getValues, h1, h2, Except.map]

end Dict

namespace ParameterizedStandard

theorem set_loop_get?_not_mem {α ε : Type} (ks : List String) (params : Dict α)
    (input_array : List α) (counter : Nat) (k : String) (h : k ∉ ks) :
    Dict.get? (set_loop (ε := ε) params ks input_array counter).1 k =
      Dict.get? params k := by
  induction ks generalizing params counter with
  | nil => rfl
  | cons k1 rest ih =>
    have hne : k ≠ k1 := fun h2 => h (by simp [h2])
    have h2 : k ∉ rest := fun h3 => h (by simp [h3])
    cases hg : input_array[counter]? with
    | none => simp [set_loop, hg]
    | some v =>
      simp only [set_loop, hg]
      rw [ih _ _ h2, Dict.get?_set_ne _ _ _ _ hne]

theorem set_loop_keys {α ε : Type} (ks : List String) (params : Dict α)
    (input_array : List α) (counter : Nat)
    (h : ∀ k ∈ ks, k ∈ Dict.keys params) :
    Dict.keys (set_loop (ε := ε) params ks input_array counter).1 =
      Dict.keys params := by
  induction ks generalizing params counter with
  | nil => rfl
  | cons k1 rest ih =>
    cases hg : input_array[counter]? with
    | none => simp [set_loop, hg]
    | some v =>
      simp only [set_loop, hg]
      have hk1 : k1 ∈ Dict.keys params := h k1 (by simp)
      have hkeys := Dict.keys_set_of_mem params k1 v hk1
      rw [ih _ _ (fun k hk => by rw [hkeys]; exact h k (by simp [hk])), hkeys]

theorem set_loop_get?_assigned {α ε : Type} (ks : List String) (params : Dict α)
    (input_array : List α) (counter : Nat) (hnd : ks.Nodup) :
    ∀ p ∈ ks.zip (input_array.drop counter),
      Dict.get? (set_loop (ε := ε) params ks input_array counter).1 p.1 =
        some p.2 := by
  induction ks generalizing params counter with
  | nil => intro p hp; simp at hp
  | cons k1 rest ih =>
    intro p hp
    cases hg : input_array[counter]? with
    | none =>
      have hle : input_array.length ≤ counter := List.getElem?_eq_none_iff.mp hg
      rw [List.drop_eq_nil_of_le hle] at hp
      simp at hp
    | some v =>
      have hlt : counter < input_array.length := by
        by_contra h2
        rw [List.getElem?_eq_none (by omega)] at hg
        exact Option.noConfusion hg
      have hv : input_array[counter] = v := by
        have h3 := hg
        rw [List.getElem?_eq_getElem hlt] at h3
        exact Option.some.inj h3
      rw [List.drop_eq_getElem_cons hlt, hv] at hp
      simp only [List.zip_cons_cons, List.mem_cons] at hp
      simp only [set_loop, hg]
      rcases hp with hp | hp
      · subst hp
        have hk1 : k1 ∉ rest := (List.nodup_cons.mp hnd).1
        rw [set_loop_get?_not_mem rest _ _ _ k1 hk1]
        exact Dict.get?_set_self params k1 v
      · exact ih _ _ (List.nodup_cons.mp hnd).2 p hp

theorem set_loop_no_error {α ε : Type} (ks : List String) (params : Dict α)
    (input_array : List α) (counter : Nat)
    (h : counter + ks.length ≤ input_array.length) :
    (set_loop (ε := ε) params ks input_array counter).2 = none := by
  induction ks generalizing params counter with
  | nil => rfl
  | cons k1 rest ih =>
    have hlt : counter < input_array.length := by
      simp only [List.length_cons] at h
      omega
    have hg : input_array[counter]? = some input_array[counter] :=
      List.getElem?_eq_getElem hlt
    simp only [set_loop, hg]
    exact ih _ _ (by simp only [List.length_cons] at h; omega)

theorem set_loop_error {α ε : Type} (ks : List String) (params : Dict α)
    (input_array : List α) (counter : Nat)
    (h1 : input_array.length < counter + ks.length)
    (h2 : counter ≤ input_array.length) :
    (set_loop (ε := ε) params ks input_array counter).2 =
      some (.indexError input_array.length) := by
  induction ks generalizing params counter with
  | nil =>
    exfalso
    simp only [List.length_nil, Nat.add_zero] at h1
    omega
  | cons k1 rest ih =>
    by_cases hc : counter < input_array.length
    · have hg : input_array[counter]? = some input_array[counter] :=
        List.getElem?_eq_getElem hc
      simp only [set_loop, hg]
      exact ih _ _ (by simp only [List.length_cons] at h1; omega) (by omega)
    · have hce : counter = input_array.length := by omega
      have hg : input_array[counter]? = none := List.getElem?_eq_none (by omega)
      simp [set_loop, hg, hce]

theorem set_loop_get?_tail {α ε : Type} (ks : List String) (params : Dict α)
    (input_array : List α) (counter : Nat) (hnd : ks.Nodup) (i : Nat)
    (hi : i < ks.length) (hlen : input_array.length ≤ counter + i) :
    Dict.get? (set_loop (ε := ε) params ks input_array counter).1
        (ks.get ⟨i, hi⟩) =
      Dict.get? params (ks.get ⟨i, hi⟩) := by
  induction ks generalizing params counter i with
  | nil => simp at hi
  | cons k1 rest ih =>
    cases i with
    | zero =>
      have hg : input_array[counter]? = none :=
        List.getElem?_eq_none (by omega)
      simp [set_loop, hg]
    | succ j =>
      cases hg : input_array[counter]? with
      | none => simp [set_loop, hg]
      | some v =>
        simp only [set_loop, hg]
        have hj : j < rest.length := by simpa using hi
        have hget : (k1 :: rest).get ⟨j + 1, hi⟩ = rest.get ⟨j, hj⟩ := rfl
        rw [hget, ih _ _ (List.nodup_cons.mp hnd).2 j hj (by omega)]
        have hne : rest.get ⟨j, hj⟩ ≠ k1 := by
          intro h2

          exact (List.nodup_cons.mp hnd).1 (h2 ▸ List.get_mem rest j hj)
        exact Dict.get?_set_ne params k1 _ v hne

theorem parameter_keys_perm {α ν ε : Type} (self : ParameterizedStandard α ν ε) :
    (parameter_keys self).Perm (Dict.keys self.parameters) :=
  List.perm_insertionSort _ _

theorem parameter_keys_sorted {α ν ε : Type}
    (self : ParameterizedStandard α ν ε) :
    (parameter_keys self).Sorted (fun a b => strLe a b = true) :=
  List.sorted_insertionSort _ _

theorem parameter_keys_nodup {α ν ε : Type} (self : ParameterizedStandard α ν ε)
    (hnd : (Dict.keys self.parameters).Nodup) : (parameter_keys self).Nodup :=
  ((parameter_keys_perm self).nodup_iff).mpr hnd

theorem mem_parameter_keys {α ν ε : Type} (self : ParameterizedStandard α ν ε)
    (k : String) : k ∈ parameter_keys self ↔ k ∈ Dict.keys self.parameters :=
  (parameter_keys_perm self).mem_iff

theorem number_of_parameters_eq {α ν ε : Type}
    (self : ParameterizedStandard α ν ε) :
    number_of_parameters self = (Dict.keys self.parameters).length :=
  (parameter_keys_perm self).length_eq

theorem parameter_keys_congr {α ν ε : Type}
    (a b : ParameterizedStandard α ν ε)
    (h : Dict.keys a.parameters = Dict.keys b.parameters) :
    parameter_keys a = parameter_keys b := by
  simp [parameter_keys, h]

end ParameterizedStandard

namespace Store

theorem read_write_ne {α : Type} (st : Store α) (r r2 : Ref) (d : Dict α)
    (h : r ≠ r2) : read (write st r d) r2 = read st r2 := by
  simp [read, write, List.getElem?_set_ne h]

theorem read_write_self {α : Type} (st : Store α) (r : Ref) (d : Dict α)
    (h : r < st.dicts.length) : read (write st r d) r = d := by
  simp [read, write, List.getElem?_set_self h]

theorem read_alloc_old {α : Type} (st : Store α) (d : Dict α) (r : Ref)
    (h : r < st.dicts.length) : read (alloc st d).2 r = read st r := by
  simp [read, alloc, List.getElem?_append_left h]

theorem read_alloc_new {α : Type} (st : Store α) (d : Dict α) :
    read (alloc st d).2 (alloc st d).1 = d := by
  simp [read, alloc, List.getElem?_concat_length]

theorem length_write {α : Type} (st : Store α) (r : Ref) (d : Dict α) :
    (write st r d).dicts.length = st.dicts.length := by
  simp [write]

theorem read_write_alloc {α : Type} (st : Store α) (d e : Dict α) (r : Ref)
    (h : r < st.dicts.length) :
    read (write (alloc st d).2 (alloc st d).1 e) r = read st r := by
  have hne : (alloc st d).1 ≠ r := Nat.ne_of_gt h
  rw [read_write_ne _ _ _ _ hne, read_alloc_old _ _ _ h]

theorem read_write_alloc_new {α : Type} (st : Store α) (d e : Dict α) :
    read (write (alloc st d).2 (alloc st d).1 e) (alloc st d).1 = e := by
  apply read_write_self
  show st.dicts.length < (st.dicts ++ [d]).length
  simp

end Store

/-! ## Claims -/

open ParameterizedStandard

/-- C1, counterexample: with one parameter and an input of length two — a
length mismatch — the setter raises nothing (the class defines no
LengthMismatchError anywhere) and the parameters dict is rewritten, so the
claimed raise-and-leave-unchanged behaviour fails on the code. -/
theorem claim_C1_counterexample :
    (set_parameter_array exPS1 [1, 2]).2 = none ∧
    (set_parameter_array exPS1 [1, 2]).1.parameters = [("a", 1)] := by
  constructor <;> decide

/-- C1 (amended): `set_parameter_array` performs no length validation.  When
the input is at least as long as `number_of_parameters()` it raises no
error, assigns `parameters[parameter_keys()[i]] = values[i]` for every
`i < number_of_parameters()` and ignores the trailing values, leaving the
key set unchanged; when the input is shorter it raises IndexError — not
LengthMismatchError — at index `len(values)`, after assigning the first
`len(values)` parameters in alphabetical key order and leaving the
remaining parameters unchanged. -/
theorem claim_C1_amended {α ν ε : Type} (self : ParameterizedStandard α ν ε)
    (input_array : List α) (hnd : (Dict.keys self.parameters).Nodup) :
    (number_of_parameters self ≤ input_array.length →
      (set_parameter_array self input_array).2 = none ∧
      Dict.keys (set_parameter_array self input_array).1.parameters =
        Dict.keys self.parameters ∧
      ∀ p ∈ (parameter_keys self).zip input_array,
        Dict.get? (set_parameter_array self input_array).1.parameters p.1 =
          some p.2) ∧
    (input_array.length < number_of_parameters self →
      (set_parameter_array self input_array).2 =
        some (PyError.indexError input_array.length) ∧
      Dict.keys (set_parameter_array self input_array).1.parameters =
        Dict.keys self.parameters ∧
      (∀ p ∈ (parameter_keys self).zip input_array,
        Dict.get? (set_parameter_array self input_array).1.parameters p.1 =
          some p.2) ∧
      ∀ i, ∀ hi : i < (parameter_keys self).length, input_array.length ≤ i →
        Dict.get? (set_parameter_array self input_array).1.parameters
            ((parameter_keys self).get ⟨i, hi⟩) =
          Dict.get? self.parameters ((parameter_keys self).get ⟨i, hi⟩)) := by
  have hsub : ∀ k ∈ parameter_keys self, k ∈ Dict.keys self.parameters :=
    fun k hk => (mem_parameter_keys self k).mp hk
  have hknd : (parameter_keys self).Nodup := parameter_keys_nodup self hnd
  have hassigned := set_loop_get?_assigned (ε := ε) (parameter_keys self)
    self.parameters input_array 0 hknd
  rw [List.drop_zero] at hassigned
  have hkeys := set_loop_keys (ε := ε) (parameter_keys self) self.parameters
    input_array 0 hsub
  constructor
  · intro hle
    refine ⟨?_, ?_, ?_⟩
    · simp only [set_parameter_array]
      exact set_loop_no_error _ _ _ _
        (by simp only [number_of_parameters] at hle; omega)
    · simpa [set_parameter_array] using hkeys
    · intro p hp
      simpa [set_parameter_array] using hassigned p hp
  · intro hlt
    refine ⟨?_, ?_, ?_, ?_⟩
    · simp only [set_parameter_array]
      exact set_loop_error _ _ _ _
        (by simp only [number_of_parameters] at hlt; omega) (Nat.zero_le _)
    · simpa [set_parameter_array] using hkeys
    · intro p hp
      simpa [set_parameter_array] using hassigned p hp
    · intro i hi hile
      have htail := set_loop_get?_tail (ε := ε) (parameter_keys self)
        self.parameters input_array 0 hknd i hi (by omega)
      simpa [set_parameter_array] using htail

/-- C1 (amended), witness: on the two-parameter standard `exPS2` a
one-element input raises IndexError at index 1. -/
theorem claim_C1_amended_witness :
    (set_parameter_array exPS2 [5]).2 = some (PyError.indexError 1) :=
  ((claim_C1_amended exPS2 [5] (by decide)).2 (by decide)).1

/-- C2: writing a sequence of the matching length through the
`parameter_array` setter raises no error, and reading `parameter_array` back
yields exactly that sequence. -/
theorem claim_C2 {α ν ε : Type} (self : ParameterizedStandard α ν ε)
    (input_array : List α) (hnd : (Dict.keys self.parameters).Nodup)
    (hlen : input_array.length = number_of_parameters self) :
    (set_parameter_array self input_array).2 = none ∧
    parameter_array (set_parameter_array self input_array).1 =
      .ok input_array := by
  have hsub : ∀ k ∈ parameter_keys self, k ∈ Dict.keys self.parameters :=
    fun k hk => (mem_parameter_keys self k).mp hk
  have hknd : (parameter_keys self).Nodup := parameter_keys_nodup self hnd
  have hassigned := set_loop_get?_assigned (ε := ε) (parameter_keys self)
    self.parameters input_array 0 hknd
  rw [List.drop_zero] at hassigned
  have hkeys := set_loop_keys (ε := ε) (parameter_keys self) self.parameters
    input_array 0 hsub
  constructor
  · simp only [set_parameter_array]
    exact set_loop_no_error _ _ _ _
      (by simp only [number_of_parameters] at hlen; omega)
  · have hpk : parameter_keys (set_parameter_array self input_array).1 =
        parameter_keys self := by
      apply parameter_keys_congr
      simpa [set_parameter_array] using hkeys
    simp only [parameter_array, hpk]
    apply Dict.getValues_eq
    · simp only [number_of_parameters] at hlen
      omega
    · intro p hp
      simpa [set_parameter_array] using hassigned p hp

/-- C2, witness: writing `[5, 7]` into the two-parameter standard `exPS2`
succeeds and reads back as `[5, 7]`. -/
theorem claim_C2_witness :
    (set_parameter_array exPS2 [5, 7]).2 = none ∧
    parameter_array (set_parameter_array exPS2 [5, 7]).1 = .ok [5, 7] :=
  claim_C2 exPS2 [5, 7] (by decide) (by decide)

/-- C3: `parameter_keys` returns the keys of the parameters dict sorted
lexicographically ascending — it is a permutation of the key set, sorted
under the string order — and it depends only on the entry set, not on the
order in which keys were inserted into the dict.  Being a plain function of
the object, the access mutates nothing. -/
theorem claim_C3 {α ν ε : Type} (self : ParameterizedStandard α ν ε) :
    (parameter_keys self).Sorted (fun a b => a ≤ b) ∧
    (parameter_keys self).Perm (Dict.keys self.parameters) ∧
    ∀ other : ParameterizedStandard α ν ε,
      self.parameters.Perm other.parameters →
      parameter_keys self = parameter_keys other := by
  refine ⟨?_, parameter_keys_perm self, ?_⟩
  · exact (parameter_keys_sorted self).imp (fun h => (strLe_iff_le _ _).mp h)
  · intro other hperm
    have hkp : (Dict.keys self.parameters).Perm (Dict.keys other.parameters) :=
      hperm.map Prod.fst
    have h1 : (parameter_keys self).Perm (parameter_keys other) :=
      (parameter_keys_perm self).trans
        (hkp.trans (parameter_keys_perm other).symm)
    exact List.eq_of_perm_of_sorted h1 (parameter_keys_sorted self)
      (parameter_keys_sorted other)

/-- C3, witness: the standards `exPS3` and `exPS3p` hold the same entries
inserted in different orders, and `parameter_keys` is identical on both. -/
theorem claim_C3_witness :
    parameter_keys exPS3 = parameter_keys exPS3p :=
  (claim_C3 exPS3).2.2 exPS3p (by decide)

/-- C4: `network` calls the generator on `tmp_args`, the merge of a copy of
the fixed arguments updated by the live parameters: every binding present in
`parameters` appears in `tmp_args` with the value from `parameters` — a name
bound in both dicts resolves to the parameters value — and a name absent
from `parameters` keeps its `kwargs` binding. -/
theorem claim_C4 {α ν ε : Type} (self : ParameterizedStandard α ν ε)
    (hnd : (Dict.keys self.parameters).Nodup) :
    (∀ k v, Dict.get? self.parameters k = some v →
      Dict.get? (tmp_args self) k = some v) ∧
    (∀ k, Dict.get? self.parameters k = none →
      Dict.get? (tmp_args self) k = Dict.get? self.kwargs k) ∧
    network self =
      match self.function (tmp_args self) with
      | .ok nw => .ok nw
      | .error e => .error (.genError e) := by
  refine ⟨?_, ?_, rfl⟩
  · intro k v hv
    simp only [tmp_args, Dict.copy]
    rw [Dict.get?_update self.kwargs self.parameters k hnd, hv]
  · intro k hv
    simp only [tmp_args, Dict.copy]
    rw [Dict.get?_update self.kwargs self.parameters k hnd, hv]

/-- C4, witness: `exPS4` binds `x` to 1 in its fixed arguments and to 2 in
its parameters; the dict handed to the generator carries `x = 2`. -/
theorem claim_C4_witness :
    Dict.get? (tmp_args exPS4) "x" = some 2 :=
  (claim_C4 exPS4 (by decide)).1 "x" 2 (by decide)

/-- C6: a standard whose parameters dict is empty has zero parameters, an
empty parameter array, and a `network` read that still succeeds whenever the
generator does, called on exactly the fixed arguments. -/
theorem claim_C6 {α ν ε : Type} (self : ParameterizedStandard α ν ε)
    (h : self.parameters = []) :
    number_of_parameters self = 0 ∧
    parameter_array self = .ok [] ∧
    tmp_args self = self.kwargs ∧
    ∀ nw, self.function self.kwargs = .ok nw → network self = .ok nw := by
  have hpk : parameter_keys self = [] := by
    simp [parameter_keys, h, List.insertionSort]
  have ht : tmp_args self = self.kwargs := by
    simp [tmp_args, h, Dict.update, Dict.copy]
  refine ⟨?_, ?_, ht, ?_⟩
  · simp [number_of_parameters, hpk]
  · simp [parameter_array, hpk, Dict.getValues]
  · intro nw hnw
    simp [network, ht, hnw]

/-- C6, witness: the zero-parameter standard `exPS6` reports no parameters,
an empty array, and its `network` read returns the generator's response. -/
theorem claim_C6_witness :
    network exPS6 = .ok ({ s := some 7 } : Network Int) :=
  (claim_C6 exPS6 rfl).2.2.2 { s := some 7 } rfl

/-- C8: the `s` accessor returns exactly the s-matrix field of the object
`network` produces — it propagates any error `network` raises, and raises
AttributeError when the response object lacks the field. -/
theorem claim_C8 {α σ ε : Type} (self : ParameterizedStandard α (Network σ) ε) :
    (∀ e, network self = .error e → ParameterizedStandard.s self = .error e) ∧
    (∀ nw m, network self = .ok nw → nw.s = some m →
      ParameterizedStandard.s self = .ok m) ∧
    (∀ nw, network self = .ok nw → nw.s = none →
      ParameterizedStandard.s self = .error (.attributeError "s")) := by
  refine ⟨?_, ?_, ?_⟩
  · intro e he
    simp [ParameterizedStandard.s, he]
  · intro nw m h1 h2
    simp [ParameterizedStandard.s, h1, h2]
  · intro nw h1 h2
    simp [ParameterizedStandard.s, h1, h2]

/-- C8, witness: on `exPS8` the generator responds with s-matrix 9 and the
`s` accessor returns it. -/
theorem claim_C8_witness :
    ParameterizedStandard.s exPS8 = .ok 9 :=
  (claim_C8 exPS8).2.1 { s := some 9 } 9 rfl rfl

/-- C9: two consecutive reads of `network` with no intervening mutation each
invoke the generator afresh — the trace holds exactly two invocations, both
on the same merged argument dict — and the two reads return equal responses,
each equal to a single `network` read. -/
theorem claim_C9 {α ν ε : Type} (self : ParameterizedStandard α ν ε) :
    (network_twice self).2 = [tmp_args self, tmp_args self] ∧
    (network_twice self).2.length = 2 ∧
    (network_twice self).1.1 = (network_twice self).1.2 ∧
    (network_twice self).1.1 = network self :=
  ⟨rfl, rfl, rfl, rfl⟩

/-- C10: an input strictly longer than the number of parameters raises no
error: the first `number_of_parameters()` values are assigned to the keys in
alphabetical order, the trailing values are ignored, and the key set is
unchanged. -/
theorem claim_C10 {α ν ε : Type} (self : ParameterizedStandard α ν ε)
    (input_array : List α) (hnd : (Dict.keys self.parameters).Nodup)
    (hlen : number_of_parameters self < input_array.length) :
    (set_parameter_array self input_array).2 = none ∧
    Dict.keys (set_parameter_array self input_array).1.parameters =
      Dict.keys self.parameters ∧
    ∀ p ∈ (parameter_keys self).zip input_array,
      Dict.get? (set_parameter_array self input_array).1.parameters p.1 =
        some p.2 := by
  have hsub : ∀ k ∈ parameter_keys self, k ∈ Dict.keys self.parameters :=
    fun k hk => (mem_parameter_keys self k).mp hk
  have hknd : (parameter_keys self).Nodup := parameter_keys_nodup self hnd
  have hassigned := set_loop_get?_assigned (ε := ε) (parameter_keys self)
    self.parameters input_array 0 hknd
  rw [List.drop_zero] at hassigned
  have hkeys := set_loop_keys (ε := ε) (parameter_keys self) self.parameters
    input_array 0 hsub
  refine ⟨?_, ?_, ?_⟩
  · simp only [set_parameter_array]
    exact set_loop_no_error _ _ _ _
      (by simp only [number_of_parameters] at hlen; omega)
  · simpa [set_parameter_array] using hkeys
  · intro p hp
    simpa [set_parameter_array] using hassigned p hp

/-- C10, witness: the one-parameter standard `exPS10` accepts the
three-element input `[4, 5, 6]` without error, stores 4 under `d`, and keeps
its key set. -/
theorem claim_C10_witness :
    (set_parameter_array exPS10 [4, 5, 6]).2 = none ∧
    Dict.get? (set_parameter_array exPS10 [4, 5, 6]).1.parameters "d" =
      some 4 :=
  ⟨(claim_C10 exPS10 [4, 5, 6] (by decide) (by decide)).1,
    (claim_C10 exPS10 [4, 5, 6] (by decide) (by decide)).2.2 ("d", 4)
      (by decide)⟩

/-- C5, code-bug evidence: the default `parameters={}` in `__init__` is
evaluated once, so it is one shared dict object.  Two standards constructed
without an explicit parameters argument — one directly, one through the
`PS_Parameterless` preset — reference that same object: before the write the
second instance's dict lacks `x`; after the direct write
`first.parameters["x"] = 1` the binding is visible through the second
instance, which the claimed independence forbids. -/
theorem claim_C5_code_bug :
    c5run1.1.parametersRef = c5run2.1.parametersRef ∧
    Dict.get? (c5run2.2.read c5run2.1.parametersRef) "x" = none ∧
    Dict.get? (c5store3.read c5run2.1.parametersRef) "x" = some 1 := by
  refine ⟨rfl, ?_, ?_⟩ <;> decide

/-- C7: a `network` computation never mutates the stored fixed-arguments
dict (nor the parameters dict): the generator runs on a fresh copy of the
fixed arguments updated by the live parameters, and after the call both
dicts the instance references read back exactly as before. -/
theorem claim_C7 {α ν ε : Type} (self : PSObj α ν ε) (st : Store α)
    (hk : self.kwargsRef < st.dicts.length)
    (hp : self.parametersRef < st.dicts.length) :
    (self.network st).2.read self.kwargsRef = st.read self.kwargsRef ∧
    (self.network st).2.read self.parametersRef =
      st.read self.parametersRef ∧
    (self.network st).1 =
      match self.function
          (Dict.update (Dict.copy (st.read self.kwargsRef))
            (st.read self.parametersRef)) with
      | .ok nw => .ok nw
      | .error e => .error (.genError e) := by
  refine ⟨?_, ?_, ?_⟩
  · simp only [PSObj.network]
    exact Store.read_write_alloc st _ _ _ hk
  · simp only [PSObj.network]
    exact Store.read_write_alloc st _ _ _ hp
  · simp only [PSObj.network]
    rw [Store.read_write_alloc_new, Store.read_alloc_new,
      Store.read_alloc_old _ _ _ hp]

/-- C7, witness: on a two-object heap the `network` computation of `c7ps`
leaves its kwargs dict unchanged. -/
theorem claim_C7_witness :
    (c7ps.network c7store).2.read c7ps.kwargsRef =
      c7store.read c7ps.kwargsRef :=
  (claim_C7 c7ps c7store (by decide) (by decide)).1

end Mwavepy
